import Mathlib

/- Verification of PEFT adapter utilities: the PiSSA-to-LoRA checkpoint
   conversion, the VeRA linear adapter layer (merge / unmerge / forward /
   zero-initialization), the PC-LoRA distillation-scheduled forward pass, the
   adaption-prompt attention wrapper, and the mixed-adapter model's error
   handling.  Tensor arithmetic is modelled over exact rationals; where a
   finiteness check matters (safe merge) an explicit value type with NaN and
   infinities is used. -/

/-! ## Generic helpers: Python string / dict / sort primitives -/

/-- Tests whether the pattern char list occurs at the head of the subject char list. -/
def charsLead : List Char → List Char → Bool
  | [], _ => true
  | _ :: _, [] => false
  | a :: as, b :: bs => a == b && charsLead as bs

/-- Tests whether the pattern occurs anywhere inside the subject char list. -/
def charsHasSub (pat : List Char) : List Char → Bool
  | [] => charsLead pat []
  | s@(_ :: rest) => charsLead pat s || charsHasSub pat rest

/-- Python's substring test `pat in name` on strings. -/
def pyIn (pat name : String) : Bool := charsHasSub pat.toList name.toList

/-- Keys of an insertion-ordered association list (a Python dict). -/
def dictKeys {α : Type} (l : List (String × α)) : List String := l.map Prod.fst

/-- Python dict assignment: overwrite in place when the key exists, else append. -/
def dictSet {α : Type} (l : List (String × α)) (k : String) (v : α) : List (String × α) :=
  if (dictKeys l).contains k then l.map fun p => if p.1 == k then (k, v) else p
  else l ++ [(k, v)]

/-- Python dict deletion of a key. -/
def dictDel {α : Type} (l : List (String × α)) (k : String) : List (String × α) :=
  l.filter fun p => p.1 != k

/-- Lexicographic comparison of char lists by code point (Python string order). -/
def charsLe : List Char → List Char → Bool
  | [], _ => true
  | _ :: _, [] => false
  | a :: as, b :: bs =>
    if a.toNat < b.toNat then true
    else if b.toNat < a.toNat then false
    else charsLe as bs

/-- String comparison used to model Python `sorted` on strings. -/
def strLe (a b : String) : Bool := charsLe a.toList b.toList

/-- Insertion into a sorted list of strings. -/
def insSorted (a : String) : List String → List String
  | [] => [a]
  | b :: bs => if strLe a b then a :: b :: bs else b :: insSorted a bs

/-- Python `sorted` on a list of strings (insertion sort). -/
def pySorted (l : List String) : List String := l.foldr insSorted []

/-- Python `sorted(set(l))`: order-insensitive, duplicate-free, sorted. -/
def pySortedSet (l : List String) : List String := pySorted l.dedup

/-- Dot product of rational vectors, evaluated as a list sum. -/
def dotQ {k : ℕ} (v w : Fin k → ℚ) : ℚ :=
  ((List.finRange k).map fun i => v i * w i).sum

/-! ## PiSSA-to-LoRA conversion (`peft/utils/pissa_utils.py`) -/

/-- Row-wise concatenation of two matrices, `torch.cat([X, Y], dim=0)`. -/
def catRows {p q n : ℕ} (X : Matrix (Fin p) (Fin n) ℚ) (Y : Matrix (Fin q) (Fin n) ℚ) :
    Matrix (Fin (p + q)) (Fin n) ℚ :=
  Matrix.of fun i j => Fin.addCases (fun i1 => X i1 j) (fun i2 => Y i2 j) i

/-- Column-wise concatenation of two matrices, `torch.cat([X, Y], dim=1)`. -/
def catCols {m p q : ℕ} (X : Matrix (Fin m) (Fin p) ℚ) (Y : Matrix (Fin m) (Fin q) ℚ) :
    Matrix (Fin m) (Fin (p + q)) ℚ :=
  Matrix.of fun i j => Fin.addCases (fun j1 => X i j1) (fun j2 => Y i j2) j

/-- A matrix rendered as its list of rows, the stored form of a checkpoint tensor. -/
def matToLists {p q : ℕ} (M : Matrix (Fin p) (Fin q) ℚ) : List (List ℚ) :=
  List.ofFn fun i => List.ofFn fun j => M i j

/-- Per-tensor transformation performed by `pissa_to_lora`: names containing
  "lora_A" get `cat([finetuned, init], dim=0)`, every other name gets
  `cat([finetuned, -init], dim=1)`. -/
def pissa_cat_tensor (name : String) (tInit tFt : List (List ℚ)) : List (List ℚ) :=
  if pyIn "lora_A" name then tFt ++ tInit
  else List.zipWith (fun rFt rInit => rFt ++ rInit.map (fun a => -a)) tFt tInit

/-- The tensor dictionary `tensors_delta_w` written by `pissa_to_lora`: iterate
  the names of the initial checkpoint, pairing each with the finetuned tensor of
  the same name. -/
def pissa_to_lora_tensors (tensors_init tensors_finetune : List (String × List (List ℚ))) :
    List (String × List (List ℚ)) :=
  tensors_init.map fun p =>
    (p.1, pissa_cat_tensor p.1 p.2 ((List.lookup p.1 tensors_finetune).getD []))

/-- The adapter configuration record loaded from `adapter_config.json`. The
  `extra` component stands for every field other than the three that
  `pissa_to_lora` touches. -/
structure LoraConfigRecord (ε : Type) where
  r : ℚ
  lora_alpha : ℚ
  init_lora_weights : Bool
  extra : ε

/-- Configuration rewrite performed by `pissa_to_lora`: set
  `init_lora_weights = True`, double `r`, double `lora_alpha`, keep the rest. -/
def pissa_to_lora_config {ε : Type} (c : LoraConfigRecord ε) : LoraConfigRecord ε :=
  { c with init_lora_weights := true, r := c.r * 2, lora_alpha := c.lora_alpha * 2 }

/-- A concrete 1 × 1 rational matrix, used for concrete instantiations. -/
def mat1 (c : ℚ) : Matrix (Fin 1) (Fin 1) ℚ := Matrix.of fun _ _ => c

/-! ## VeRA linear layer (`peft/tuners/vera/layer.py`), exact arithmetic -/

/-- Per-adapter VeRA parameters: the trainable scaling vectors and the dropout
  module configured for the adapter (an arbitrary input transformation). -/
structure VeraAdapter (n m r : ℕ) where
  lambda_b : Fin m → ℚ
  lambda_d : Fin r → ℚ
  dropout : (Fin n → ℚ) → (Fin n → ℚ)

/-- State of `vera.layer.Linear`: the wrapped `nn.Linear` base layer's weight
  (out_features × in_features, `fan_in_fan_out = False`) and bias, the per-name
  adapter dictionaries, and the bookkeeping lists.  The rank `r` is type-level:
  the layer comment in the source notes that only a single shared VeRA shape is
  supported. -/
structure VeraLinearState (n m r : ℕ) where
  weight : Fin m → Fin n → ℚ
  bias : Fin m → ℚ
  adapters : List (String × VeraAdapter n m r)
  active_adapters : List String
  merged_adapters : List String
  disable_adapters : Bool

/-- The `merged` property: `bool(self.merged_adapters)`. -/
def VeraLayer.merged {n m r : ℕ} (s : VeraLinearState n m r) : Bool :=
  !s.merged_adapters.isEmpty

/-- `VeraLayer.reset_vera_parameters`: when the adapter name is present, fill
  `vera_lambda_d` with `d_initial` and zero `vera_lambda_b`. -/
def VeraLayer.reset_vera_parameters {n m r : ℕ} (s : VeraLinearState n m r)
    (adapter_name : String) (d_initial : ℚ) : VeraLinearState n m r :=
  if (dictKeys s.adapters).contains adapter_name then
    { s with adapters := s.adapters.map fun p =>
        if p.1 == adapter_name then
          (p.1, { p.2 with lambda_d := fun _ => d_initial, lambda_b := fun _ => 0 })
        else p }
  else s

/-- `VeraLayer.update_layer`: reject non-positive rank, install a dropout module
  (`nn.Dropout` when `vera_dropout > 0`, identity otherwise), create the scaling
  vectors as ones, then apply `reset_vera_parameters` when `init_vera_weights`.
  The external `nn.Dropout` behaviour is the caller-supplied `dropFn`. -/
def VeraLayer.update_layer {n m r : ℕ} (s : VeraLinearState n m r) (adapter_name : String)
    (vera_dropout : ℚ) (dropFn : (Fin n → ℚ) → (Fin n → ℚ)) (init_vera_weights : Bool)
    (d_initial : ℚ) : Except String (VeraLinearState n m r) :=
  if r ≤ 0 then .error "r should be a positive integer value"
  else
    let dropout_layer := if vera_dropout > 0 then dropFn else id
    let newAd : VeraAdapter n m r :=
      { lambda_b := fun _ => 1, lambda_d := fun _ => 1, dropout := dropout_layer }
    let s1 := { s with adapters := dictSet s.adapters adapter_name newAd }
    .ok (if init_vera_weights then VeraLayer.reset_vera_parameters s1 adapter_name d_initial
         else s1)

/-- The state set up by `Linear.__init__` before its `update_layer` call: empty
  adapter dictionaries, `_active_adapter = adapter_name`, unmerged, enabled. -/
def emptyVeraLinear {n m r : ℕ} (w : Fin m → Fin n → ℚ) (b : Fin m → ℚ)
    (adapter_name : String) : VeraLinearState n m r :=
  { weight := w, bias := b, adapters := [], active_adapters := [adapter_name],
    merged_adapters := [], disable_adapters := false }

/-- `Linear.get_delta_weight`:
  `transpose((lambda_b.unsqueeze(-1) * vera_B) @ (lambda_d.unsqueeze(-1) * vera_A), fan_in_fan_out)`
  with `fan_in_fan_out = False` (the `nn.Linear` target orientation). -/
def Linear.get_delta_weight {n m r : ℕ} (ad : VeraAdapter n m r)
    (vera_A : Fin r → Fin n → ℚ) (vera_B : Fin m → Fin r → ℚ) : Fin m → Fin n → ℚ :=
  fun i j => dotQ (fun k => ad.lambda_b i * vera_B i k) (fun k => ad.lambda_d k * vera_A k j)

/-- Loop body of `Linear.merge`: for each requested adapter present in
  `vera_lambda_d`, add its delta weight to the base weight and append the name
  to `merged_adapters`.  Under `safe_merge` the addition happens on a cloned
  copy first and is checked with `torch.isfinite`; over exact rational
  arithmetic that check always passes, so both branches commit the same value
  (the FP model below covers the nonfinite case). -/
def Linear.mergeLoop {n m r : ℕ} (vA : Fin r → Fin n → ℚ) (vB : Fin m → Fin r → ℚ)
    (safe_merge : Bool) : List String → VeraLinearState n m r → VeraLinearState n m r
  | [], st => st
  | name :: rest, st =>
    match List.lookup name st.adapters with
    | none => Linear.mergeLoop vA vB safe_merge rest st
    | some ad => Linear.mergeLoop vA vB safe_merge rest
        { st with weight := st.weight + Linear.get_delta_weight ad vA vB,
                  merged_adapters := st.merged_adapters ++ [name] }

/-- `Linear.merge` with an explicit resolved `adapter_names` list.  The returned
  Bool records whether the already-merged warning fired at entry. -/
def Linear.merge {n m r : ℕ} (s : VeraLinearState n m r) (vA : Fin r → Fin n → ℚ)
    (vB : Fin m → Fin r → ℚ) (adapter_names : List String) (safe_merge : Bool) :
    VeraLinearState n m r × Bool :=
  (Linear.mergeLoop vA vB safe_merge adapter_names s, VeraLayer.merged s)

/-- `Linear.unmerge`: when not merged, warn (Bool result `true`) and change
  nothing; otherwise pop every entry of `merged_adapters` from the end and
  subtract the popped adapter's delta weight from the base weight. -/
def Linear.unmerge {n m r : ℕ} (s : VeraLinearState n m r) (vA : Fin r → Fin n → ℚ)
    (vB : Fin m → Fin r → ℚ) : VeraLinearState n m r × Bool :=
  if s.merged_adapters.isEmpty then (s, true)
  else
    ({ s with
        weight := s.merged_adapters.reverse.foldl (fun w name =>
          match List.lookup name s.adapters with
          | some ad => w - Linear.get_delta_weight ad vA vB
          | none => w) s.weight,
        merged_adapters := [] }, false)

/-- Output of the wrapped base layer: `F.linear(x, weight, bias)`. -/
def baseLinearOut {n m : ℕ} (w : Fin m → Fin n → ℚ) (b : Fin m → ℚ) (x : Fin n → ℚ) :
    Fin m → ℚ :=
  fun i => dotQ (w i) x + b i

/-- Adapter accumulation of `Linear.forward`:
  `result += lambda_b * F.linear(lambda_d * F.linear(dropout(x), vera_A), vera_B)`
  over the active adapters, skipping names absent from `vera_lambda_d`. -/
def Linear.forwardLoop {n m r : ℕ} (adapters : List (String × VeraAdapter n m r))
    (vA : Fin r → Fin n → ℚ) (vB : Fin m → Fin r → ℚ) (x : Fin n → ℚ) :
    List String → (Fin m → ℚ) → (Fin m → ℚ)
  | [], res => res
  | name :: rest, res =>
    match List.lookup name adapters with
    | none => Linear.forwardLoop adapters vA vB x rest res
    | some ad => Linear.forwardLoop adapters vA vB x rest
        (fun i => res i +
          ad.lambda_b i * dotQ (vB i) (fun k => ad.lambda_d k * dotQ (vA k) (ad.dropout x)))

/-- `Linear.forward` of the VeRA layer.  In the disabled branch the layer first
  unmerges if merged and then evaluates the base layer on the restored weight. -/
def Linear.forward {n m r : ℕ} (s : VeraLinearState n m r) (vA : Fin r → Fin n → ℚ)
    (vB : Fin m → Fin r → ℚ) (x : Fin n → ℚ) : Fin m → ℚ :=
  if s.disable_adapters then
    baseLinearOut (Linear.unmerge s vA vB).1.weight (Linear.unmerge s vA vB).1.bias x
  else if VeraLayer.merged s then baseLinearOut s.weight s.bias x
  else Linear.forwardLoop s.adapters vA vB x s.active_adapters (baseLinearOut s.weight s.bias x)

/-- A sequence of `Linear.merge` calls, each with its own name list and
  `safe_merge` flag. -/
def Linear.mergeCalls {n m r : ℕ} (s : VeraLinearState n m r) (vA : Fin r → Fin n → ℚ)
    (vB : Fin m → Fin r → ℚ) (calls : List (List String × Bool)) : VeraLinearState n m r :=
  calls.foldl (fun st c => (Linear.merge st vA vB c.1 c.2).1) s

/-- Sum of the delta weights of the named adapters that are present in the
  adapter dictionary; absent names contribute zero. -/
def deltaSumQ {n m r : ℕ} (adapters : List (String × VeraAdapter n m r))
    (vA : Fin r → Fin n → ℚ) (vB : Fin m → Fin r → ℚ) (names : List String) :
    Fin m → Fin n → ℚ :=
  (names.map fun nm =>
    match List.lookup nm adapters with
    | some ad => Linear.get_delta_weight ad vA vB
    | none => 0).sum

/-! ## VeRA merge over values with NaN / infinities (safe-merge semantics) -/

/-- A tensor entry: an exact finite value, NaN, or a signed infinity. -/
inductive FP where
  | fin : ℚ → FP
  | nan : FP
  | pinf : FP
  | ninf : FP
deriving DecidableEq

/-- Addition with IEEE-style propagation of NaN and infinities; finite values
  add exactly. -/
def FP.add : FP → FP → FP
  | nan, _ => nan
  | _, nan => nan
  | pinf, ninf => nan
  | ninf, pinf => nan
  | pinf, _ => pinf
  | _, pinf => pinf
  | ninf, _ => ninf
  | _, ninf => ninf
  | fin a, fin b => fin (a + b)

/-- Multiplication with IEEE-style propagation; `inf * 0 = nan`. -/
def FP.mul : FP → FP → FP
  | nan, _ => nan
  | _, nan => nan
  | pinf, pinf => pinf
  | pinf, ninf => ninf
  | ninf, pinf => ninf
  | ninf, ninf => pinf
  | pinf, fin a => if 0 < a then pinf else if a < 0 then ninf else nan
  | fin a, pinf => if 0 < a then pinf else if a < 0 then ninf else nan
  | ninf, fin a => if 0 < a then ninf else if a < 0 then pinf else nan
  | fin a, ninf => if 0 < a then ninf else if a < 0 then pinf else nan
  | fin a, fin b => fin (a * b)

/-- `torch.isfinite` on one entry. -/
def FP.isFinite : FP → Bool
  | fin _ => true
  | _ => false

/-- Dot product over FP entries. -/
def dotFP {k : ℕ} (v w : Fin k → FP) : FP :=
  ((List.finRange k).map fun i => FP.mul (v i) (w i)).foldr FP.add (FP.fin 0)

/-- VeRA adapter scaling vectors over FP entries. -/
structure VeraAdapterFP (m r : ℕ) where
  lambda_b : Fin m → FP
  lambda_d : Fin r → FP

/-- The parts of the VeRA linear layer state that `merge` touches, over FP. -/
structure VeraLinearFPState (n m r : ℕ) where
  weight : Fin m → Fin n → FP
  adapters : List (String × VeraAdapterFP m r)
  merged_adapters : List String

/-- `Linear.get_delta_weight` over FP entries (`fan_in_fan_out = False`). -/
def Linear.get_delta_weightFP {n m r : ℕ} (ad : VeraAdapterFP m r)
    (vA : Fin r → Fin n → FP) (vB : Fin m → Fin r → FP) : Fin m → Fin n → FP :=
  fun i j => dotFP (fun k => FP.mul (ad.lambda_b i) (vB i k))
    (fun k => FP.mul (ad.lambda_d k) (vA k j))

/-- `torch.isfinite(w).all()`. -/
def allFiniteFP {n m : ℕ} (w : Fin m → Fin n → FP) : Bool :=
  (List.finRange m).all fun i => (List.finRange n).all fun j => (w i j).isFinite

/-- `Linear.merge` over FP entries.  The safe branch performs the addition on a
  cloned copy, checks finiteness, and only then commits; a failed check raises
  (the `some` message) with the state as it stood at that point, matching the
  Python exception leaving earlier loop iterations committed. -/
def Linear.mergeFP {n m r : ℕ} (vA : Fin r → Fin n → FP) (vB : Fin m → Fin r → FP)
    (safe_merge : Bool) : List String → VeraLinearFPState n m r →
    VeraLinearFPState n m r × Option String
  | [], st => (st, none)
  | name :: rest, st =>
    match List.lookup name st.adapters with
    | none => Linear.mergeFP vA vB safe_merge rest st
    | some ad =>
      if safe_merge then
        let orig := fun i j => FP.add (st.weight i j) (Linear.get_delta_weightFP ad vA vB i j)
        if allFiniteFP orig then
          Linear.mergeFP vA vB safe_merge rest
            { st with weight := orig, merged_adapters := st.merged_adapters ++ [name] }
        else
          (st, some ("NaNs detected in the merged weights. The adapter " ++ name ++
            " seems to be broken"))
      else
        Linear.mergeFP vA vB safe_merge rest
          { st with
              weight := fun i j =>
                FP.add (st.weight i j) (Linear.get_delta_weightFP ad vA vB i j),
              merged_adapters := st.merged_adapters ++ [name] }

/-! ## Adaption prompt (`peft/tuners/adaption_prompt.py`) -/

/-- The gate value set by `AdaptedAttention.__init__`: zero-init. -/
def adaption_gate_init : ℚ := 0

/-- `llama_compute_adapter_output`, batch and head dimensions flattened: the
  softmaxed attention scores are passed in abstractly (softmax is external
  tensor math), the gate scales them, and the gated scores are matmul'd with
  the adapter values and sent through `o_proj` (a LLaMA projection, bias-free). -/
def llama_compute_adapter_output {qn pn hn : ℕ} (o_proj : Matrix (Fin hn) (Fin hn) ℚ)
    (adaption_gate : ℚ) (softmax_scores : Matrix (Fin qn) (Fin pn) ℚ)
    (adapter_v : Matrix (Fin pn) (Fin hn) ℚ) : Matrix (Fin qn) (Fin hn) ℚ :=
  ((adaption_gate • softmax_scores) * adapter_v) * o_proj.transpose

/-- Tail of `AdaptedAttention.forward`: `output = output + adapter_output`. -/
def AdaptedAttention.output {qn pn hn : ℕ} (base_output : Matrix (Fin qn) (Fin hn) ℚ)
    (o_proj : Matrix (Fin hn) (Fin hn) ℚ) (adaption_gate : ℚ)
    (softmax_scores : Matrix (Fin qn) (Fin pn) ℚ) (adapter_v : Matrix (Fin pn) (Fin hn) ℚ) :
    Matrix (Fin qn) (Fin hn) ℚ :=
  base_output + llama_compute_adapter_output o_proj adaption_gate softmax_scores adapter_v

/-! ## PC-LoRA layer (`peft/tuners/pclora/layer.py`) -/

/-- `math.isclose` with its default tolerances `rel_tol = 1e-9`, `abs_tol = 0`. -/
def iscloseQ (a b : ℚ) : Bool :=
  decide (|a - b| ≤ max ((1 / 1000000000 : ℚ) * max |a| |b|) 0)

/-- One named LoRA adapter as seen by the PC-LoRA layer: factor matrices
  (`nn.Linear` without bias), dropout, scaling, and the DoRA alternative path
  (`lora_magnitude_vector`, externally defined, kept abstract). -/
structure LoraAdapterQ (n m r : ℕ) where
  lora_A : Fin r → Fin n → ℚ
  lora_B : Fin m → Fin r → ℚ
  dropout : (Fin n → ℚ) → (Fin n → ℚ)
  scaling : ℚ
  use_dora : Bool
  dora_out : (Fin n → ℚ) → (Fin m → ℚ)

/-- State of `PCLoRALayer`: the wrapped base layer as a transformation, the
  inherited mixed-batch forward (external to this repository, kept abstract),
  the adapter dictionaries and bookkeeping, and the distillation gate
  `self._lambda`. -/
structure PCLoRAState (n m r : ℕ) where
  base : (Fin n → ℚ) → (Fin m → ℚ)
  mixed_batch : (Fin n → ℚ) → List String → (Fin m → ℚ)
  adapters : List (String × LoraAdapterQ n m r)
  active_adapters : List String
  merged_adapters : List String
  disable_adapters : Bool
  lam : ℚ

/-- Adapter accumulation of `PCLoRALayer.forward`: for each active adapter
  present in `lora_A`, either the PC-LoRA update
  `result = lambda * result + lora_B(lora_A(dropout(x))) * scaling`
  or the DoRA branch `result = result + lora_magnitude_vector(...)`. -/
def PCLoRALayer.forwardLoop {n m r : ℕ} (s : PCLoRAState n m r) (x : Fin n → ℚ) :
    List String → (Fin m → ℚ) → (Fin m → ℚ)
  | [], res => res
  | name :: rest, res =>
    match List.lookup name s.adapters with
    | none => PCLoRALayer.forwardLoop s x rest res
    | some ad => PCLoRALayer.forwardLoop s x rest
        (if ad.use_dora then fun i => res i + ad.dora_out x i
         else fun i =>
           s.lam * res i + dotQ (ad.lora_B i) (fun k => dotQ (ad.lora_A k) (ad.dropout x)) * ad.scaling)

/-- `PCLoRALayer.forward`.  The base layer is deactivated (result starts from
  the zero tensor) exactly when `math.isclose(self._lambda, 0)`. -/
def PCLoRALayer.forward {n m r : ℕ} (s : PCLoRAState n m r)
    (adapter_names : Option (List String)) (x : Fin n → ℚ) : Fin m → ℚ :=
  if s.disable_adapters then s.base x
  else
    match adapter_names with
    | some names => s.mixed_batch x names
    | none =>
      if !s.merged_adapters.isEmpty then s.base x
      else
        PCLoRALayer.forwardLoop s x s.active_adapters
          (if !(iscloseQ s.lam 0) then s.base x else fun _ => 0)

/-- The output form asserted by the claim (spec wording, for comparison with
  the code model): the sum over active adapters of
  `scaling * lora_B(lora_A(dropout(x)))`. -/
def pcloraClaimedDeltaSum {n m r : ℕ} (s : PCLoRAState n m r) (x : Fin n → ℚ) :
    Fin m → ℚ :=
  fun i => (s.active_adapters.map fun name =>
    match List.lookup name s.adapters with
    | some ad => dotQ (ad.lora_B i) (fun k => dotQ (ad.lora_A k) (ad.dropout x)) * ad.scaling
    | none => 0).sum

/-! ## Mixed model (`peft/mixed_model.py`) -/

/-- Adapter family tags (`PeftType`). -/
inductive PeftType where
  | LORA
  | LOHA
  | LOKR
  | ADALORA
  | IA3
  | PREFIX_TUNING
  | PROMPT_TUNING
  | ADAPTION_PROMPT
deriving DecidableEq

/-- `peft.tuners.mixed.COMPATIBLE_TUNER_TYPES`, mirrored by
  `PEFT_TYPE_TO_MODEL_MAPPING` in `mixed_model.py`. -/
def COMPATIBLE_TUNER_TYPES : List PeftType :=
  [PeftType.LORA, PeftType.LOHA, PeftType.LOKR, PeftType.ADALORA, PeftType.IA3]

/-- The slice of a `PeftConfig` that `PeftMixedModel` inspects. -/
structure MixedPeftConfig where
  peft_type : PeftType
  modules_to_save : Option (List String)

/-- Observable adapter state of a `PeftMixedModel`: the configuration map, the
  active-adapter selection, and the accumulated `modules_to_save` set. -/
structure PeftMixedModelState where
  peft_config : List (String × MixedPeftConfig)
  active_adapters : List String
  modules_to_save : Option (List String)

/-- The lookup-error message of `set_adapter` and `delete_adapter`, carrying the
  sorted mismatched names and the sorted list of available adapter names. -/
def lookupErrorMsg (mismatched available : List String) : String :=
  "Adapter(s) " ++ toString mismatched ++ " not found, available adapters: " ++
    toString available

/-- `_check_config_compatible`: raise when the peft_type is not on the
  compatibility whitelist. -/
def checkConfigCompatible (cfg : MixedPeftConfig) : Option String :=
  if !(COMPATIBLE_TUNER_TYPES.contains cfg.peft_type) then
    some "The provided peft_type is not compatible with the PeftMixedModel"
  else none

/-- `PeftMixedModel.set_adapter` (names already wrapped into a list): unknown
  names raise the lookup error before any mutation; otherwise the active
  selection is updated (the per-layer propagation is delegated to the base
  model). -/
def PeftMixedModel.set_adapter (s : PeftMixedModelState) (adapter_name : List String) :
    PeftMixedModelState × Option String :=
  let mismatched := pySortedSet (adapter_name.filter fun nm =>
    !(dictKeys s.peft_config).contains nm)
  if !mismatched.isEmpty then
    (s, some (lookupErrorMsg mismatched (pySorted (dictKeys s.peft_config))))
  else ({ s with active_adapters := adapter_name }, none)

/-- `PeftMixedModel.delete_adapter` (names already wrapped into a list): unknown
  names raise the lookup error before any mutation; otherwise the names are
  removed from the configuration map (the per-layer deletion is delegated to
  the base model). -/
def PeftMixedModel.delete_adapter (s : PeftMixedModelState) (adapter_name : List String) :
    PeftMixedModelState × Option String :=
  let mismatched := pySortedSet (adapter_name.filter fun nm =>
    !(dictKeys s.peft_config).contains nm)
  if !mismatched.isEmpty then
    (s, some (lookupErrorMsg mismatched (pySorted (dictKeys s.peft_config))))
  else ({ s with peft_config := adapter_name.foldl dictDel s.peft_config }, none)

/-- `PeftMixedModel.set_modules_to_save`: extend the accumulated set when the
  configuration names modules to save (`_set_trainable` is external). -/
def PeftMixedModel.set_modules_to_save (s : PeftMixedModelState) (cfg : MixedPeftConfig) :
    PeftMixedModelState :=
  match cfg.modules_to_save with
  | none => s
  | some mods =>
    match s.modules_to_save with
    | none => { s with modules_to_save := some mods }
    | some cur => { s with modules_to_save := some ((cur ++ mods).dedup) }

/-- `PeftMixedModel.add_adapter`: check compatibility, register the
  configuration under the new name, then inject.  The injection
  (`base_model.inject_adapter`, external) may fail; its outcome is the
  `inject_error` argument.  On failure the name is deleted from the
  configuration map (when present) and the exception is re-raised. -/
def PeftMixedModel.add_adapter (s : PeftMixedModelState) (adapter_name : String)
    (cfg : MixedPeftConfig) (inject_error : Option String) :
    PeftMixedModelState × Option String :=
  match checkConfigCompatible cfg with
  | some e => (s, some e)
  | none =>
    let s1 : PeftMixedModelState :=
      { s with peft_config := dictSet s.peft_config adapter_name cfg }
    match inject_error with
    | some e =>
      ({ s1 with peft_config :=
          if (dictKeys s1.peft_config).contains adapter_name then
            dictDel s1.peft_config adapter_name
          else s1.peft_config }, some e)
    | none => (PeftMixedModel.set_modules_to_save s1 cfg, none)

/-! ## Concrete instances used by witnesses and counterexamples -/

/-- A concrete one-adapter VeRA linear layer, unmerged, used for witnesses and
  counterexamples. -/
def veraS1 : VeraLinearState 1 1 1 :=
  { weight := fun _ _ => 0, bias := fun _ => 0,
    adapters := [("a", { lambda_b := fun _ => 1, lambda_d := fun _ => 1, dropout := id })],
    active_adapters := ["a"], merged_adapters := [], disable_adapters := false }

/-- Concrete shared VeRA projection for 1-dimensional instantiations. -/
def vOne : Fin 1 → Fin 1 → ℚ := fun _ _ => 1

/-- A concrete freshly initialized VeRA layer, the result of `update_layer`
  on an empty layer with `init_vera_weights = True`. -/
def veraFreshS : VeraLinearState 1 1 1 :=
  { weight := fun _ _ => 2, bias := fun _ => 1,
    adapters := [("default",
      { lambda_b := fun _ => 0, lambda_d := fun _ => 1, dropout := id })],
    active_adapters := ["default"], merged_adapters := [], disable_adapters := false }

/-- Concrete base weight for the C2 witness. -/
def w2 : Fin 1 → Fin 1 → ℚ := fun _ _ => 2

/-- Concrete base bias for the C2 witness. -/
def b1 : Fin 1 → ℚ := fun _ => 1

/-- Concrete input for the C2 witness. -/
def x3 : Fin 1 → ℚ := fun _ => 3

/-- A concrete FP layer with one healthy adapter "a" and one broken adapter
  "b" whose `lambda_b` is NaN. -/
def fpTwoState : VeraLinearFPState 1 1 1 :=
  { weight := fun _ _ => FP.fin 1,
    adapters :=
      [("a", { lambda_b := fun _ => FP.fin 1, lambda_d := fun _ => FP.fin 1 }),
       ("b", { lambda_b := fun _ => FP.nan, lambda_d := fun _ => FP.fin 1 })],
    merged_adapters := [] }

/-- Concrete shared FP projection. -/
def fpOne : Fin 1 → Fin 1 → FP := fun _ _ => FP.fin 1

/-- A concrete 1-dimensional LoRA adapter with identity factors. -/
def pcloraAd1 : LoraAdapterQ 1 1 1 :=
  { lora_A := fun _ _ => 1, lora_B := fun _ _ => 1, dropout := id, scaling := 1,
    use_dora := false, dora_out := fun _ _ => 0 }

/-- Concrete input for the PC-LoRA instantiations. -/
def qOne1 : Fin 1 → ℚ := fun _ => 1

/-- A concrete PC-LoRA layer with one active adapter and the gate at zero. -/
def pcloraS1 : PCLoRAState 1 1 1 :=
  { base := fun x => x, mixed_batch := fun _ _ _ => 0,
    adapters := [("a", pcloraAd1)], active_adapters := ["a"], merged_adapters := [],
    disable_adapters := false, lam := 0 }

/-- The same layer with two active adapters, both with nonzero deltas. -/
def pcloraS2 : PCLoRAState 1 1 1 :=
  { base := fun x => x, mixed_batch := fun _ _ _ => 0,
    adapters := [("a", pcloraAd1), ("b", pcloraAd1)],
    active_adapters := ["a", "b"], merged_adapters := [],
    disable_adapters := false, lam := 0 }

/-- A concrete mixed-model state with one registered adapter "x". -/
def mixedS1 : PeftMixedModelState :=
  { peft_config := [("x", { peft_type := PeftType.LORA, modules_to_save := none })],
    active_adapters := ["x"], modules_to_save := none }

/-! ## Helper lemmas -/

theorem zipWithMapSame {α β γ δ : Type} (f : β → γ → δ) (g : α → β) (h2 : α → γ)
    (l : List α) :
    List.zipWith f (l.map g) (l.map h2) = l.map fun x => f (g x) (h2 x) := by
  induction l with
  | nil => rfl
  | cons a as ih => simp [ih]

theorem matToLists_catRows {p q n : ℕ} (X : Matrix (Fin p) (Fin n) ℚ)
    (Y : Matrix (Fin q) (Fin n) ℚ) :
    matToLists (catRows X Y) = matToLists X ++ matToLists Y := by
  unfold matToLists catRows
  rw [List.ofFn_add]
  simp [Fin.addCases_left, Fin.addCases_right]

theorem matToLists_catCols_neg {m p q : ℕ} (X : Matrix (Fin m) (Fin p) ℚ)
    (Y : Matrix (Fin m) (Fin q) ℚ) :
    List.zipWith (fun rX rY => rX ++ rY.map fun a => -a) (matToLists X) (matToLists Y)
      = matToLists (catCols X (-Y)) := by
  unfold matToLists catCols
  rw [List.ofFn_eq_map, List.ofFn_eq_map, List.ofFn_eq_map, zipWithMapSame]
  apply List.map_congr_left
  intro i _
  rw [List.ofFn_add, List.map_ofFn]
  simp [Function.comp_def, Fin.addCases_left, Fin.addCases_right]

theorem catCols_neg_mul_catRows {r n m : ℕ} (A0 A1 : Matrix (Fin r) (Fin n) ℚ)
    (B0 B1 : Matrix (Fin m) (Fin r) ℚ) :
    catCols B1 (-B0) * catRows A1 A0 = B1 * A1 - B0 * A0 := by
  ext i j
  rw [Matrix.mul_apply, Fin.sum_univ_add]
  simp only [catCols, catRows, Matrix.of_apply, Fin.addCases_left, Fin.addCases_right,
    Matrix.sub_apply, Matrix.mul_apply, Matrix.neg_apply, neg_mul]
  rw [Finset.sum_neg_distrib]
  ring

theorem lookup_map_keyed {α β : Type} (g : String → α → β) (l : List (String × α))
    (name : String) :
    List.lookup name (l.map fun p => (p.1, g p.1 p.2))
      = (List.lookup name l).map (g name) := by
  induction l with
  | nil => rfl
  | cons p rest ih =>
    simp only [List.map_cons, List.lookup]
    cases h : name == p.1 with
    | true => simp [eq_of_beq h]
    | false => simpa using ih

/-! ## C1 and C10: PiSSA-to-LoRA conversion -/

/-- C1: for checkpoints sharing one name set, `pissa_to_lora` maps each name to
  the transform of the initial and finetuned tensors of that name; names
  containing "lora_A" become the dim-0 concatenation (finetuned, initial),
  other names the dim-1 concatenation (finetuned, negated initial); the
  rank-2r factor product satisfies `B' * A' = B1 * A1 - B0 * A0` exactly; and
  the output configuration's rank is exactly twice the input's. -/
theorem pissa_to_lora_rank2r_conversion {r n m : ℕ} {ε : Type}
    (A0 A1 : Matrix (Fin r) (Fin n) ℚ) (B0 B1 : Matrix (Fin m) (Fin r) ℚ)
    (nameA nameB : String) (cfg : LoraConfigRecord ε)
    (tensors_init tensors_finetune : List (String × List (List ℚ)))
    (hA : pyIn "lora_A" nameA = true) (hB : pyIn "lora_A" nameB = false) :
    List.lookup nameA (pissa_to_lora_tensors tensors_init tensors_finetune)
        = (List.lookup nameA tensors_init).map
            (fun t => pissa_cat_tensor nameA t ((List.lookup nameA tensors_finetune).getD []))
    ∧ pissa_cat_tensor nameA (matToLists A0) (matToLists A1) = matToLists (catRows A1 A0)
    ∧ pissa_cat_tensor nameB (matToLists B0) (matToLists B1) = matToLists (catCols B1 (-B0))
    ∧ catCols B1 (-B0) * catRows A1 A0 = B1 * A1 - B0 * A0
    ∧ (pissa_to_lora_config cfg).r = 2 * cfg.r := by
  refine ⟨?_, ?_, ?_, catCols_neg_mul_catRows A0 A1 B0 B1, ?_⟩
  · exact lookup_map_keyed
      (fun nm t => pissa_cat_tensor nm t ((List.lookup nm tensors_finetune).getD []))
      tensors_init nameA
  · simp [pissa_cat_tensor, hA, matToLists_catRows]
  · simp [pissa_cat_tensor, hB, matToLists_catCols_neg]
  · simp [pissa_to_lora_config, mul_comm]

/-- Witness for C1 at concrete names, 1-dimensional factors, and a concrete
  configuration. -/
theorem pissa_to_lora_rank2r_conversion_witness :
    pyIn "lora_A" "base_model.q_proj.lora_A.weight" = true
    ∧ pyIn "lora_A" "base_model.q_proj.lora_B.weight" = false
    ∧ ((pissa_to_lora_config (LoraConfigRecord.mk 8 16 false (0 : ℕ))).r
        = 2 * (LoraConfigRecord.mk 8 16 false (0 : ℕ)).r
      ∧ catCols (mat1 3) (-(mat1 1)) * catRows (mat1 2) (mat1 1)
          = mat1 3 * mat1 2 - mat1 1 * mat1 1) := by
  have h := pissa_to_lora_rank2r_conversion (mat1 1) (mat1 2) (mat1 1) (mat1 3)
    "base_model.q_proj.lora_A.weight" "base_model.q_proj.lora_B.weight"
    (LoraConfigRecord.mk 8 16 false (0 : ℕ)) [] [] (by rfl) (by rfl)
  exact ⟨by rfl, by rfl, h.2.2.2.2, h.2.2.2.1⟩

/-- C10: besides doubling `r`, `pissa_to_lora` doubles `lora_alpha` (so the
  effective scaling `lora_alpha / r` is preserved), sets `init_lora_weights`
  to true, and copies every other configuration field unchanged. -/
theorem pissa_to_lora_config_doubling {ε : Type} (c : LoraConfigRecord ε) :
    (pissa_to_lora_config c).lora_alpha = 2 * c.lora_alpha
    ∧ (pissa_to_lora_config c).r = 2 * c.r
    ∧ (pissa_to_lora_config c).lora_alpha / (pissa_to_lora_config c).r
        = c.lora_alpha / c.r
    ∧ (pissa_to_lora_config c).init_lora_weights = true
    ∧ (pissa_to_lora_config c).extra = c.extra := by
  refine ⟨by simp [pissa_to_lora_config, mul_comm], by simp [pissa_to_lora_config, mul_comm],
    ?_, rfl, rfl⟩
  simp only [pissa_to_lora_config]
  exact mul_div_mul_right c.lora_alpha c.r two_ne_zero

/-! ## VeRA merge / unmerge bookkeeping lemmas -/

theorem deltaSumQ_append {n m r : ℕ} (adapters : List (String × VeraAdapter n m r))
    (vA : Fin r → Fin n → ℚ) (vB : Fin m → Fin r → ℚ) (l1 l2 : List String) :
    deltaSumQ adapters vA vB (l1 ++ l2)
      = deltaSumQ adapters vA vB l1 + deltaSumQ adapters vA vB l2 := by
  simp [deltaSumQ]

theorem deltaSumQ_reverse {n m r : ℕ} (adapters : List (String × VeraAdapter n m r))
    (vA : Fin r → Fin n → ℚ) (vB : Fin m → Fin r → ℚ) (l : List String) :
    deltaSumQ adapters vA vB l.reverse = deltaSumQ adapters vA vB l := by
  simp [deltaSumQ, List.map_reverse, List.sum_reverse]

theorem mergeLoop_spec {n m r : ℕ} (vA : Fin r → Fin n → ℚ) (vB : Fin m → Fin r → ℚ)
    (safe : Bool) (names : List String) :
    ∀ st : VeraLinearState n m r,
      (Linear.mergeLoop vA vB safe names st).adapters = st.adapters
      ∧ (Linear.mergeLoop vA vB safe names st).weight
          = st.weight + deltaSumQ st.adapters vA vB names
      ∧ (Linear.mergeLoop vA vB safe names st).merged_adapters
          = st.merged_adapters
            ++ names.filter (fun nm => (List.lookup nm st.adapters).isSome) := by
  induction names with
  | nil => intro st; simp [Linear.mergeLoop, deltaSumQ]
  | cons name rest ih =>
    intro st
    cases hl : List.lookup name st.adapters with
    | none =>
      have h := ih st
      simp only [Linear.mergeLoop, hl]
      refine ⟨h.1, ?_, ?_⟩
      · rw [h.2.1]
        simp [deltaSumQ, hl]
      · rw [h.2.2]
        simp [List.filter_cons, hl]
    | some ad =>
      have h := ih { st with weight := st.weight + Linear.get_delta_weight ad vA vB,
                             merged_adapters := st.merged_adapters ++ [name] }
      simp only [Linear.mergeLoop, hl]
      refine ⟨h.1, ?_, ?_⟩
      · rw [h.2.1]
        simp [deltaSumQ, hl, add_assoc]
      · rw [h.2.2]
        simp [List.filter_cons, hl]

theorem foldl_sub_delta {n m r : ℕ} (adapters : List (String × VeraAdapter n m r))
    (vA : Fin r → Fin n → ℚ) (vB : Fin m → Fin r → ℚ) (l : List String) :
    ∀ w : Fin m → Fin n → ℚ,
      l.foldl (fun w name =>
        match List.lookup name adapters with
        | some ad => w - Linear.get_delta_weight ad vA vB
        | none => w) w = w - deltaSumQ adapters vA vB l := by
  induction l with
  | nil => intro w; simp [deltaSumQ]
  | cons name rest ih =>
    intro w
    cases hl : List.lookup name adapters with
    | none =>
      simp only [List.foldl_cons, hl]
      rw [ih]
      simp [deltaSumQ, hl]
    | some ad =>
      simp only [List.foldl_cons, hl]
      rw [ih]
      simp [deltaSumQ, hl, sub_sub]

theorem unmerge_spec {n m r : ℕ} (s : VeraLinearState n m r)
    (vA : Fin r → Fin n → ℚ) (vB : Fin m → Fin r → ℚ) :
    (Linear.unmerge s vA vB).1.weight
        = s.weight - deltaSumQ s.adapters vA vB s.merged_adapters
    ∧ (Linear.unmerge s vA vB).1.adapters = s.adapters := by
  unfold Linear.unmerge
  by_cases h : s.merged_adapters.isEmpty
  · rw [List.isEmpty_iff] at h
    simp [h, deltaSumQ]
  · have h' : s.merged_adapters.isEmpty = false := by simpa using h
    simp only [h', Bool.false_eq_true, if_false]
    constructor
    · rw [foldl_sub_delta, deltaSumQ_reverse]
    · trivial

theorem deltaSumQ_filter_isSome {n m r : ℕ} (adapters : List (String × VeraAdapter n m r))
    (vA : Fin r → Fin n → ℚ) (vB : Fin m → Fin r → ℚ) (names : List String) :
    deltaSumQ adapters vA vB (names.filter fun nm => (List.lookup nm adapters).isSome)
      = deltaSumQ adapters vA vB names := by
  induction names with
  | nil => rfl
  | cons name rest ih =>
    rw [List.filter_cons]
    cases hl : List.lookup name adapters with
    | none =>
      simp only [hl, Option.isSome_none, Bool.false_eq_true, if_false, ih]
      simp [deltaSumQ, hl]
    | some ad =>
      simp only [hl, Option.isSome_some, if_true]
      simp only [deltaSumQ, List.map_cons, List.sum_cons, hl] at ih ⊢
      rw [ih]

theorem mergeCalls_spec {n m r : ℕ} (vA : Fin r → Fin n → ℚ) (vB : Fin m → Fin r → ℚ)
    (calls : List (List String × Bool)) :
    ∀ s : VeraLinearState n m r,
      (Linear.mergeCalls s vA vB calls).adapters = s.adapters
      ∧ ∃ L : List String,
          (Linear.mergeCalls s vA vB calls).merged_adapters = s.merged_adapters ++ L
          ∧ (Linear.mergeCalls s vA vB calls).weight
              = s.weight + deltaSumQ s.adapters vA vB L := by
  induction calls with
  | nil =>
    intro s
    exact ⟨rfl, [], by simp [Linear.mergeCalls], by simp [Linear.mergeCalls, deltaSumQ]⟩
  | cons c rest ih =>
    intro s
    have hstep := mergeLoop_spec vA vB c.2 c.1 s
    have hrest := ih (Linear.mergeLoop vA vB c.2 c.1 s)
    have hcalls : Linear.mergeCalls s vA vB (c :: rest)
        = Linear.mergeCalls (Linear.mergeLoop vA vB c.2 c.1 s) vA vB rest := by
      simp [Linear.mergeCalls, Linear.merge]
    obtain ⟨L', hm', hw'⟩ := hrest.2
    refine ⟨by rw [hcalls, hrest.1, hstep.1], ?_⟩
    refine ⟨c.1.filter (fun nm => (List.lookup nm s.adapters).isSome) ++ L', ?_, ?_⟩
    · rw [hcalls, hm', hstep.2.2, List.append_assoc]
    · rw [hcalls, hw', hstep.1, hstep.2.1, deltaSumQ_append, add_assoc,
        deltaSumQ_filter_isSome]

/-! ## C3, C5, C9: VeRA merge and unmerge behaviour -/

/-- C3: starting from an unmerged VeRA linear layer, any sequence of `merge`
  calls followed by one `unmerge` restores the base weight exactly: `unmerge`
  pops the merged names in reverse order and subtracts the same
  `get_delta_weight` terms that `merge` added. -/
theorem merge_unmerge_restores_weight {n m r : ℕ} (s : VeraLinearState n m r)
    (vA : Fin r → Fin n → ℚ) (vB : Fin m → Fin r → ℚ)
    (calls : List (List String × Bool)) (h : s.merged_adapters = []) :
    (Linear.unmerge (Linear.mergeCalls s vA vB calls) vA vB).1.weight = s.weight := by
  have hadapters := (mergeCalls_spec vA vB calls s).1
  obtain ⟨L, hm, hw⟩ := (mergeCalls_spec vA vB calls s).2
  rw [(unmerge_spec (Linear.mergeCalls s vA vB calls) vA vB).1, hadapters, hm, h,
    List.nil_append, hw, add_sub_cancel_right]

/-- Witness for C3: a concrete merge call followed by unmerge restores the
  concrete base weight. -/
theorem merge_unmerge_restores_weight_witness :
    veraS1.merged_adapters = []
    ∧ (Linear.unmerge (Linear.mergeCalls veraS1 vOne vOne [(["a"], false)]) vOne vOne).1.weight
        = veraS1.weight :=
  ⟨rfl, merge_unmerge_restores_weight veraS1 vOne vOne [(["a"], false)] rfl⟩

/-- C5 counterexample: calling `merge` again for the already-merged adapter
  "a" warns but is not a no-op: the delta is added to the base weight a second
  time and the merged list gains a duplicate entry. -/
theorem remerge_not_noop_counterexample :
    (Linear.merge (Linear.merge veraS1 vOne vOne ["a"] false).1 vOne vOne ["a"] false).2 = true
    ∧ (Linear.merge (Linear.merge veraS1 vOne vOne ["a"] false).1 vOne vOne
        ["a"] false).1.merged_adapters
        ≠ (Linear.merge veraS1 vOne vOne ["a"] false).1.merged_adapters
    ∧ (Linear.merge (Linear.merge veraS1 vOne vOne ["a"] false).1 vOne vOne
        ["a"] false).1.weight 0 0
        ≠ (Linear.merge veraS1 vOne vOne ["a"] false).1.weight 0 0 := by
  refine ⟨rfl, by decide, ?_⟩
  simp [Linear.merge, Linear.mergeLoop, veraS1, vOne, Linear.get_delta_weight, dotQ,
    List.finRange, VeraLayer.merged]

/-- C5 amended: re-merging an adapter that is already in the merged set emits
  the warning and is not an error, but it is not a no-op either: the layer adds
  the adapter's delta to the base weight a second time and appends the name to
  `merged_adapters` again. -/
theorem remerge_warns_and_merges_again {n m r : ℕ} (s : VeraLinearState n m r)
    (vA : Fin r → Fin n → ℚ) (vB : Fin m → Fin r → ℚ) (name : String)
    (ad : VeraAdapter n m r) (safe : Bool)
    (hl : List.lookup name s.adapters = some ad) (hm : name ∈ s.merged_adapters) :
    (Linear.merge s vA vB [name] safe).2 = true
    ∧ (Linear.merge s vA vB [name] safe).1.weight
        = s.weight + Linear.get_delta_weight ad vA vB
    ∧ (Linear.merge s vA vB [name] safe).1.merged_adapters
        = s.merged_adapters ++ [name] := by
  refine ⟨?_, ?_, ?_⟩
  · have : s.merged_adapters ≠ [] := List.ne_nil_of_mem hm
    simp [Linear.merge, VeraLayer.merged, List.isEmpty_iff, this]
  · simp [Linear.merge, Linear.mergeLoop, hl]
  · simp [Linear.merge, Linear.mergeLoop, hl]

/-- Witness for the amended C5 at the concrete one-adapter layer after one
  merge. -/
theorem remerge_warns_and_merges_again_witness :
    List.lookup "a" (Linear.merge veraS1 vOne vOne ["a"] false).1.adapters
        = some { lambda_b := fun _ => 1, lambda_d := fun _ => 1, dropout := id }
    ∧ "a" ∈ (Linear.merge veraS1 vOne vOne ["a"] false).1.merged_adapters
    ∧ (Linear.merge (Linear.merge veraS1 vOne vOne ["a"] false).1 vOne vOne
        ["a"] false).1.merged_adapters
        = (Linear.merge veraS1 vOne vOne ["a"] false).1.merged_adapters ++ ["a"] := by
  refine ⟨rfl, ?_, ?_⟩
  · show "a" ∈ ["a"]
    exact List.mem_singleton.mpr rfl
  · exact (remerge_warns_and_merges_again (Linear.merge veraS1 vOne vOne ["a"] false).1
      vOne vOne "a" { lambda_b := fun _ => 1, lambda_d := fun _ => 1, dropout := id }
      false rfl (List.mem_singleton.mpr rfl)).2.2

/-- C9: `Linear.unmerge` always drains the merged set completely: afterwards
  `merged_adapters` is empty and the `merged` property is false, regardless of
  how many adapters had been merged; and on an already-unmerged layer it only
  warns and returns the state unchanged. -/
theorem unmerge_drains_merged_set {n m r : ℕ} (s : VeraLinearState n m r)
    (vA : Fin r → Fin n → ℚ) (vB : Fin m → Fin r → ℚ) :
    (Linear.unmerge s vA vB).1.merged_adapters = []
    ∧ VeraLayer.merged (Linear.unmerge s vA vB).1 = false
    ∧ (s.merged_adapters = [] → Linear.unmerge s vA vB = (s, true)) := by
  unfold Linear.unmerge
  by_cases h : s.merged_adapters.isEmpty
  · rw [List.isEmpty_iff] at h
    simp [h, VeraLayer.merged]
  · have hne : s.merged_adapters ≠ [] := by
      intro hc
      exact h (by simp [hc])
    simp [h, VeraLayer.merged, hne]

/-- Witness for C9 at a concrete already-unmerged layer: the call only warns
  and returns the state unchanged. -/
theorem unmerge_drains_merged_set_witness :
    veraS1.merged_adapters = []
    ∧ (Linear.unmerge veraS1 vOne vOne).1.merged_adapters = []
    ∧ Linear.unmerge veraS1 vOne vOne = (veraS1, true) := by
  have h := unmerge_drains_merged_set veraS1 vOne vOne
  exact ⟨rfl, h.1, h.2.2 rfl⟩

/-! ## C2: zero-init identity (VeRA and AdaptedAttention) -/

/-- C2: a freshly constructed, unmerged, active VeRA linear layer
  (`update_layer` with `init_vera_weights = True` zeroes `vera_lambda_b`)
  produces exactly the base layer's output for every input; and the
  adaption-prompt attention wrapper with its zero-initialized gate adds an
  exactly-zero adapter output to the base attention output. -/
theorem zero_init_identity {n m r qn pn hn : ℕ}
    (w : Fin m → Fin n → ℚ) (b : Fin m → ℚ) (adapter_name : String)
    (vera_dropout d_initial : ℚ) (dropFn : (Fin n → ℚ) → (Fin n → ℚ))
    (s : VeraLinearState n m r)
    (h : VeraLayer.update_layer (emptyVeraLinear w b adapter_name) adapter_name
          vera_dropout dropFn true d_initial = Except.ok s)
    (vA : Fin r → Fin n → ℚ) (vB : Fin m → Fin r → ℚ) (x : Fin n → ℚ)
    (base_output : Matrix (Fin qn) (Fin hn) ℚ) (o_proj : Matrix (Fin hn) (Fin hn) ℚ)
    (softmax_scores : Matrix (Fin qn) (Fin pn) ℚ) (adapter_v : Matrix (Fin pn) (Fin hn) ℚ) :
    Linear.forward s vA vB x = baseLinearOut w b x
    ∧ AdaptedAttention.output base_output o_proj adaption_gate_init softmax_scores adapter_v
        = base_output := by
  constructor
  · unfold VeraLayer.update_layer at h
    split at h
    · exact absurd h (by simp)
    · simp only [emptyVeraLinear, dictSet, dictKeys, VeraLayer.reset_vera_parameters,
        List.map_nil, List.contains_nil, Bool.false_eq_true, if_false, List.nil_append,
        if_true, List.contains_cons, List.map_cons, beq_self_eq_true, Bool.or_true,
        Bool.true_or, Except.ok.injEq] at h
      subst h
      simp only [Linear.forward, Linear.forwardLoop, VeraLayer.merged, List.isEmpty_nil,
        Bool.not_true, Bool.false_eq_true, if_false, List.lookup]
      funext i
      simp
  · unfold AdaptedAttention.output llama_compute_adapter_output adaption_gate_init
    simp

/-- Witness for C2 at a concrete fresh layer and concrete attention shapes. -/
theorem zero_init_identity_witness :
    VeraLayer.update_layer (emptyVeraLinear w2 b1 "default") "default" 0 id true 1
        = Except.ok veraFreshS
    ∧ (Linear.forward veraFreshS vOne vOne x3 = baseLinearOut w2 b1 x3
      ∧ AdaptedAttention.output (mat1 7) (mat1 5) adaption_gate_init (mat1 1) (mat1 1)
          = mat1 7) := by
  have h : VeraLayer.update_layer (emptyVeraLinear w2 b1 "default") "default" 0 id true 1
      = Except.ok veraFreshS := by rfl
  exact ⟨h, zero_init_identity w2 b1 "default" 0 1 id veraFreshS h
    vOne vOne x3 (mat1 7) (mat1 5) (mat1 1) (mat1 1)⟩

/-! ## C4: safe merge, finiteness check, and commit order -/

/-- C4 counterexample: a safe merge of ["a", "b"] raises the NaN error on "b",
  yet the base weight is NOT left unchanged — adapter "a"'s delta was already
  committed by the same call before the failing check. -/
theorem safe_merge_not_atomic_counterexample :
    ((Linear.mergeFP fpOne fpOne true ["a", "b"] fpTwoState).2).isSome = true
    ∧ (Linear.mergeFP fpOne fpOne true ["a", "b"] fpTwoState).1.weight 0 0
        ≠ fpTwoState.weight 0 0 := by
  constructor
  · rfl
  · intro hc
    have h1 : (Linear.mergeFP fpOne fpOne true ["a", "b"] fpTwoState).1.weight 0 0
        = FP.fin (1 + (1 * 1 * (1 * 1) + 0)) := rfl
    have h2 : fpTwoState.weight 0 0 = FP.fin 1 := rfl
    rw [h1, h2] at hc
    have h3 := FP.fin.inj hc
    norm_num at h3

/-- C4 amended: with `safe_merge=True` each adapter's addition is performed on
  a cloned copy and checked for finiteness before being committed; when the
  check fails the error is raised and that adapter's update is not committed —
  for a single requested adapter the base weight and merged list are exactly
  unchanged.  (With several adapter names in one call, deltas of earlier
  adapters that passed their checks remain committed, as the counterexample
  shows.) -/
theorem safe_merge_single_check_then_commit {n m r : ℕ} (st : VeraLinearFPState n m r)
    (vA : Fin r → Fin n → FP) (vB : Fin m → Fin r → FP) (name : String)
    (h : ((Linear.mergeFP vA vB true [name] st).2).isSome = true) :
    (Linear.mergeFP vA vB true [name] st).1.weight = st.weight
    ∧ (Linear.mergeFP vA vB true [name] st).1.merged_adapters = st.merged_adapters := by
  cases hl : List.lookup name st.adapters with
  | none => simp [Linear.mergeFP, hl] at h
  | some ad =>
    cases hf : allFiniteFP (fun i j =>
        FP.add (st.weight i j) (Linear.get_delta_weightFP ad vA vB i j)) with
    | true => simp [Linear.mergeFP, hl, hf] at h
    | false => simp [Linear.mergeFP, hl, hf]

/-- Witness for the amended C4: a single-adapter safe merge of the broken
  adapter "b" raises and leaves weight and merged list unchanged. -/
theorem safe_merge_single_check_then_commit_witness :
    ((Linear.mergeFP fpOne fpOne true ["b"] fpTwoState).2).isSome = true
    ∧ (Linear.mergeFP fpOne fpOne true ["b"] fpTwoState).1.weight = fpTwoState.weight
    ∧ (Linear.mergeFP fpOne fpOne true ["b"] fpTwoState).1.merged_adapters
        = fpTwoState.merged_adapters := by
  have h : ((Linear.mergeFP fpOne fpOne true ["b"] fpTwoState).2).isSome = true := rfl
  have h2 := safe_merge_single_check_then_commit fpTwoState fpOne fpOne "b" h
  exact ⟨h, h2.1, h2.2⟩

/-! ## C6: PC-LoRA forward with the gate at exactly zero -/

theorem iscloseQ_zero_zero : iscloseQ 0 0 = true := by
  simp [iscloseQ]

theorem pclora_forwardLoop_congr {n m r : ℕ} (s t : PCLoRAState n m r) (x : Fin n → ℚ)
    (l : List String) (hA : s.adapters = t.adapters) (hl : s.lam = t.lam) :
    ∀ res : Fin m → ℚ,
      PCLoRALayer.forwardLoop s x l res = PCLoRALayer.forwardLoop t x l res := by
  induction l with
  | nil => intro res; rfl
  | cons name rest ih =>
    intro res
    simp only [PCLoRALayer.forwardLoop, hA, hl]
    cases List.lookup name t.adapters with
    | none => exact ih res
    | some ad => exact ih _

/-- C6 counterexample: a PC-LoRA layer with adapters enabled, not merged, no
  mixed-batch names, gate exactly 0, and two active adapters: the forward
  output is NOT the sum over active adapters of
  `scaling * lora_B(lora_A(dropout(x)))`, because each loop iteration
  multiplies the accumulated result by the zero gate. -/
theorem pclora_lambda_zero_sum_counterexample :
    pcloraS2.disable_adapters = false
    ∧ pcloraS2.merged_adapters = []
    ∧ pcloraS2.lam = 0
    ∧ PCLoRALayer.forward pcloraS2 none qOne1 ≠ pcloraClaimedDeltaSum pcloraS2 qOne1 := by
  refine ⟨rfl, rfl, rfl, ?_⟩
  intro hc
  have h1 : PCLoRALayer.forward pcloraS2 none qOne1 0 = 1 := by
    simp [PCLoRALayer.forward, PCLoRALayer.forwardLoop, pcloraS2, pcloraS1, pcloraAd1,
      qOne1, iscloseQ_zero_zero, dotQ, List.finRange,
      (show ("b" == "a") = false from rfl), List.lookup]
  have h2 : pcloraClaimedDeltaSum pcloraS2 qOne1 0 = 2 := by
    simp [pcloraClaimedDeltaSum, pcloraS2, pcloraS1, pcloraAd1, qOne1, dotQ, List.finRange,
      (show ("b" == "a") = false from rfl), List.lookup]
    norm_num
  rw [hc] at h1
  rw [h1] at h2
  norm_num at h2

/-- C6 amended: with adapters enabled, not merged, no mixed-batch names, and
  gate lambda exactly 0, `forward` skips evaluating the base layer entirely
  (the output does not depend on the base layer) and accumulates
  `result = lambda * result + lora_B(lora_A(dropout(x))) * scaling` over the
  active adapters starting from the zero tensor; when exactly one active
  adapter applies this equals `scaling * lora_B(lora_A(dropout(x)))` — the
  claimed sum — but with several active adapters the zero gate wipes out the
  earlier adapters' contributions, so the output is the last applicable
  adapter's delta rather than the sum. -/
theorem pclora_lambda_zero_skips_base {n m r : ℕ} (s : PCLoRAState n m r) (x : Fin n → ℚ)
    (h0 : s.disable_adapters = false) (h1 : s.merged_adapters = []) (h2 : s.lam = 0) :
    (∀ base2 : (Fin n → ℚ) → (Fin m → ℚ),
        PCLoRALayer.forward { s with base := base2 } none x
          = PCLoRALayer.forward s none x)
    ∧ (∀ name ad, s.active_adapters = [name] → List.lookup name s.adapters = some ad →
        ad.use_dora = false →
        PCLoRALayer.forward s none x
          = fun i => dotQ (ad.lora_B i) (fun k => dotQ (ad.lora_A k) (ad.dropout x))
              * ad.scaling) := by
  have hclose : iscloseQ s.lam 0 = true := by rw [h2]; exact iscloseQ_zero_zero
  constructor
  · intro base2
    simp only [PCLoRALayer.forward, h0, h1, hclose, Bool.not_true, Bool.false_eq_true,
      if_false, List.isEmpty_nil]
    apply pclora_forwardLoop_congr
    · rfl
    · rfl
  · intro name ad ha hl hd
    simp only [PCLoRALayer.forward, h0, h1, hclose, Bool.not_true, Bool.false_eq_true,
      if_false, List.isEmpty_nil, ha]
    simp only [PCLoRALayer.forwardLoop, hl, hd, Bool.false_eq_true, if_false]
    funext i
    rw [h2]
    simp

/-- Witness for the amended C6 at a concrete single-adapter layer with the
  gate at zero. -/
theorem pclora_lambda_zero_skips_base_witness :
    pcloraS1.disable_adapters = false
    ∧ pcloraS1.merged_adapters = []
    ∧ pcloraS1.lam = 0
    ∧ PCLoRALayer.forward { pcloraS1 with base := fun _ _ => 5 } none qOne1
        = PCLoRALayer.forward pcloraS1 none qOne1
    ∧ PCLoRALayer.forward pcloraS1 none qOne1
        = fun i => dotQ (pcloraAd1.lora_B i)
            (fun k => dotQ (pcloraAd1.lora_A k) (pcloraAd1.dropout qOne1))
            * pcloraAd1.scaling := by
  have h := pclora_lambda_zero_skips_base pcloraS1 qOne1 rfl rfl rfl
  exact ⟨rfl, rfl, rfl, h.1 (fun _ _ => 5), h.2 "a" pcloraAd1 rfl rfl rfl⟩

/-! ## C7 and C8: mixed-model lookup errors and add_adapter rollback -/

theorem insSorted_ne_nil (a : String) (l : List String) : insSorted a l ≠ [] := by
  cases l with
  | nil => simp [insSorted]
  | cons b bs =>
    unfold insSorted
    by_cases h : strLe a b = true
    · simp [h]
    · simp [h]

theorem pySorted_eq_nil_iff (l : List String) : pySorted l = [] ↔ l = [] := by
  cases l with
  | nil => simp [pySorted]
  | cons a as =>
    simp only [pySorted, List.foldr_cons]
    constructor
    · intro h
      exact absurd h (insSorted_ne_nil a _)
    · intro h
      exact absurd h (by simp)

/-- C7: when `set_adapter` or `delete_adapter` receives a list containing a
  name absent from the configuration map, both raise the lookup error carrying
  the sorted mismatched names and the sorted full list of available adapter
  names, and the model state is returned unchanged. -/
theorem unknown_adapter_lookup_error (s : PeftMixedModelState) (names : List String)
    (nm : String) (hmem : nm ∈ names)
    (habs : (dictKeys s.peft_config).contains nm = false) :
    PeftMixedModel.set_adapter s names
        = (s, some (lookupErrorMsg
            (pySortedSet (names.filter fun x => !(dictKeys s.peft_config).contains x))
            (pySorted (dictKeys s.peft_config))))
    ∧ PeftMixedModel.delete_adapter s names
        = (s, some (lookupErrorMsg
            (pySortedSet (names.filter fun x => !(dictKeys s.peft_config).contains x))
            (pySorted (dictKeys s.peft_config)))) := by
  have hfil : nm ∈ names.filter fun x => !(dictKeys s.peft_config).contains x := by
    rw [List.mem_filter]
    exact ⟨hmem, by rw [habs]; rfl⟩
  have hne : (names.filter fun x => !(dictKeys s.peft_config).contains x) ≠ [] :=
    List.ne_nil_of_mem hfil
  have hded : (names.filter fun x => !(dictKeys s.peft_config).contains x).dedup ≠ [] := by
    simpa [List.dedup_eq_nil] using hne
  have hsorted : pySortedSet (names.filter fun x => !(dictKeys s.peft_config).contains x)
      ≠ [] := by
    unfold pySortedSet
    rw [ne_eq, pySorted_eq_nil_iff]
    exact hded
  have hbool : (pySortedSet
      (names.filter fun x => !(dictKeys s.peft_config).contains x)).isEmpty = false := by
    rw [List.isEmpty_eq_false_iff_exists_mem]
    exact List.exists_mem_of_ne_nil _ hsorted
  constructor
  · simp only [PeftMixedModel.set_adapter]
    rw [hbool]
    simp
  · simp only [PeftMixedModel.delete_adapter]
    rw [hbool]
    simp

/-- Witness for C7: asking for the unknown adapter "y" fails on both
  operations and leaves the state unchanged. -/
theorem unknown_adapter_lookup_error_witness :
    ("y" ∈ ["y"])
    ∧ (dictKeys mixedS1.peft_config).contains "y" = false
    ∧ PeftMixedModel.set_adapter mixedS1 ["y"]
        = (mixedS1, some (lookupErrorMsg
            (pySortedSet (["y"].filter fun x => !(dictKeys mixedS1.peft_config).contains x))
            (pySorted (dictKeys mixedS1.peft_config))))
    ∧ PeftMixedModel.delete_adapter mixedS1 ["y"]
        = (mixedS1, some (lookupErrorMsg
            (pySortedSet (["y"].filter fun x => !(dictKeys mixedS1.peft_config).contains x))
            (pySorted (dictKeys mixedS1.peft_config)))) := by
  have hmem : "y" ∈ ["y"] := List.mem_singleton.mpr rfl
  have h := unknown_adapter_lookup_error mixedS1 ["y"] "y" hmem rfl
  exact ⟨hmem, rfl, h.1, h.2⟩

theorem dictDel_append_fresh {α : Type} (l : List (String × α)) (k : String) (v : α)
    (h : (dictKeys l).contains k = false) :
    dictDel (l ++ [(k, v)]) k = l := by
  unfold dictDel
  rw [List.filter_append]
  have hnotmem : ¬ k ∈ dictKeys l := by simpa using h
  have h1 : l.filter (fun p => p.1 != k) = l := by
    rw [List.filter_eq_self]
    intro p hp
    have hk : p.1 ∈ dictKeys l := List.mem_map_of_mem Prod.fst hp
    simp only [bne_iff_ne, ne_eq]
    intro hc
    exact hnotmem (hc ▸ hk)
  rw [h1]
  simp

/-- C8: when `add_adapter` fails during injection after registering a new
  adapter name, the name is removed from the configuration map before the
  exception propagates, so the configuration map is exactly what it was before
  the call, and the call reports the failure. -/
theorem add_adapter_rollback (s : PeftMixedModelState) (adapter_name : String)
    (cfg : MixedPeftConfig) (e : String)
    (hfresh : (dictKeys s.peft_config).contains adapter_name = false) :
    (PeftMixedModel.add_adapter s adapter_name cfg (some e)).1.peft_config = s.peft_config
    ∧ ((PeftMixedModel.add_adapter s adapter_name cfg (some e)).2).isSome = true := by
  unfold PeftMixedModel.add_adapter
  cases hc : checkConfigCompatible cfg with
  | some e2 => simp
  | none =>
    have hset : dictSet s.peft_config adapter_name cfg
        = s.peft_config ++ [(adapter_name, cfg)] := by
      unfold dictSet
      rw [hfresh]
      simp
    have hcontains : (dictKeys (s.peft_config ++ [(adapter_name, cfg)])).contains
        adapter_name = true := by
      simp [dictKeys]
    rw [hset]
    simp [dictKeys, dictDel_append_fresh s.peft_config adapter_name cfg hfresh]

/-- Witness for C8: adding the fresh name "y" with a failing injection leaves
  the concrete configuration map unchanged and reports the error. -/
theorem add_adapter_rollback_witness :
    (dictKeys mixedS1.peft_config).contains "y" = false
    ∧ (PeftMixedModel.add_adapter mixedS1 "y"
        { peft_type := PeftType.LOHA, modules_to_save := none }
        (some "injection failed")).1.peft_config = mixedS1.peft_config
    ∧ ((PeftMixedModel.add_adapter mixedS1 "y"
        { peft_type := PeftType.LOHA, modules_to_save := none }
        (some "injection failed")).2).isSome = true := by
  have h := add_adapter_rollback mixedS1 "y"
    { peft_type := PeftType.LOHA, modules_to_save := none } "injection failed" rfl
  exact ⟨rfl, h.1, h.2⟩
